import Mathlib

/-!
Shallow embedding of `netlify/functions/recipe-parser.js` from the
family-hub repository.

The source file concatenates three revisions of the serverless recipe
parser.  We embed the two revisions the specification's claims refer to:

* `V1` — the first revision (the cheerio-based handler with
  `extractStructuredData` / `parseRecipeFromHTML`);
* `V3` — the last, "simplified and more robust" revision (the regex-based
  handler with `extractJSONLD` / `parseRecipe` / `formatTime` /
  `getSiteName` and the always-200 fallback `catch` block).

JavaScript values flowing out of `JSON.parse` are modelled by the `Json`
inductive below (`undefined` is included because property access on a
missing key yields `undefined`).  External platform primitives are
modelled as follows:

* `JSON.parse` of a script block: a block is carried as `Option Json`,
  `none` standing for a block whose text fails to parse (the `catch`
  around `JSON.parse` then skips the block);
* `new URL(u).hostname`: an oracle `World.parseHost : String → Option
  String`, `none` standing for the constructor throwing;
* `fetch`: an oracle `World.fetch : String → FetchResult` covering the
  resolved-ok / non-2xx / network-error / abort-timeout outcomes;
* the regex captures `extractTitle` / `extractMetaDescription` read off
  the raw HTML are carried as the `Option String` fields of `HtmlDoc`.

Property access on `null`/`undefined` throws in JavaScript; code paths
where the source can hit such a throw are modelled in the `Except Unit`
monad, and the surrounding `try`/`catch` blocks of the source become
`match` on the `Except` result.
-/

/-- A JavaScript value as produced by `JSON.parse`, extended with
`undefined` (the result of reading a missing property). -/
inductive Json where
  | null
  | undefined
  | bool (b : Bool)
  | num (n : Int)
  | str (s : String)
  | arr (items : List Json)
  | obj (fields : List (String × Json))

/-- JavaScript truthiness (`NaN` and `-0` are not modelled; no claim
depends on them). -/
def truthy : Json → Bool
  | .null => false
  | .undefined => false
  | .bool b => b
  | .num n => n != 0
  | .str s => s != ""
  | .arr _ => true
  | .obj _ => true

/-- Property read `j[k]` on a value where it cannot throw: an object
yields the first binding of the key, anything else yields `undefined`. -/
def jget : Json → String → Json
  | .obj fields, k =>
    match fields.find? (fun p => p.1 == k) with
    | some p => p.2
    | none => .undefined
  | _, _ => .undefined

/-- Property read `j[k]` as JavaScript performs it: reading a property of
`null` or `undefined` throws a `TypeError`. -/
def jgetE : Json → String → Except Unit Json
  | .null, _ => .error ()
  | .undefined, _ => .error ()
  | j, k => .ok (jget j k)

/-- JavaScript `a || b`. -/
def jsOr (a b : Json) : Json :=
  if truthy a then a else b

/-- Optional chaining `j?.k`. -/
def jsOptChain (j : Json) (k : String) : Json :=
  match j with
  | .null => .undefined
  | .undefined => .undefined
  | _ => jget j k

mutual

/-- JavaScript `String(v)` / template-literal conversion.  An array
converts via `Array.prototype.toString`, i.e. `join(',')`; a plain object
converts to `"[object Object]"`. -/
def jsToString : Json → String
  | .null => "null"
  | .undefined => "undefined"
  | .bool b => cond b "true" "false"
  | .num n => toString n
  | .str s => s
  | .obj _ => "[object Object]"
  | .arr items => jsArrJoin "," items
termination_by structural j => j

/-- `Array.prototype.join(sep)`: elements convert with `String(·)` except
that `null` and `undefined` render as the empty string (the element
conversion is inlined so the mutual recursion stays structural; the
standalone `jsJoinElem` below restates it). -/
def jsArrJoin : String → List Json → String
  | _, [] => ""
  | _, [x] =>
    (match x with
     | .null => ""
     | .undefined => ""
     | j => jsToString j)
  | sep, x :: y :: rest =>
    (match x with
     | .null => ""
     | .undefined => ""
     | j => jsToString j) ++ sep ++ jsArrJoin sep (y :: rest)
termination_by structural _ l => l

end

/-- Element conversion used by `Array.prototype.join`. -/
def jsJoinElem : Json → String
  | .null => ""
  | .undefined => ""
  | j => jsToString j

/-- Whether a `Json` value is a string. -/
def Json.isStr : Json → Bool
  | .str _ => true
  | _ => false

/-!
Character-level string primitives.  The JavaScript string methods the
parser uses (`startsWith` via `/^PT/`, `trim`, `replace` with and without
the `g` flag) are re-implemented over `List Char` so that every proof
obligation on concrete strings reduces by computation.
-/

/-- Whether `l` starts with `p`. -/
def chStartsWith : List Char → List Char → Bool
  | _, [] => true
  | [], _ :: _ => false
  | c :: cs, p :: ps => c == p && chStartsWith cs ps

/-- `String.prototype.trim`: whitespace stripped from both ends. -/
def strTrim (s : String) : String :=
  String.mk (((s.data.dropWhile Char.isWhitespace).reverse.dropWhile
    Char.isWhitespace).reverse)

/-- Replace the first occurrence of the pattern `p :: ps` by `repl`
(`String.prototype.replace` with a plain-string pattern). -/
def chReplaceFirst (p : Char) (ps repl : List Char) : List Char → List Char
  | [] => []
  | c :: cs =>
    if chStartsWith (c :: cs) (p :: ps) then repl ++ cs.drop ps.length
    else c :: chReplaceFirst p ps repl cs

/-- Replace every occurrence of the pattern `p :: ps` by `repl`
(`String.prototype.replace` with a `/.../g` regex of a literal string);
the search resumes after the replaced text.  The first argument counts
characters still to skip over after a match (the matched text less the
one character already consumed). -/
def chReplaceAllAux (p : Char) (ps repl : List Char) : Nat → List Char → List Char
  | 0, [] => []
  | 0, c :: cs =>
    if chStartsWith (c :: cs) (p :: ps) then
      repl ++ chReplaceAllAux p ps repl ps.length cs
    else c :: chReplaceAllAux p ps repl 0 cs
  | _ + 1, [] => []
  | n + 1, _ :: cs => chReplaceAllAux p ps repl n cs
termination_by structural _ l => l

/-- Replace every occurrence of `p :: ps` by `repl`. -/
def chReplaceAll (p : Char) (ps repl : List Char) (l : List Char) : List Char :=
  chReplaceAllAux p ps repl 0 l

/-- `s.replace(pat, repl)` — first occurrence only. -/
def strReplaceFirst (s pat repl : String) : String :=
  match pat.data with
  | [] => s
  | p :: ps => String.mk (chReplaceFirst p ps repl.data s.data)

/-- `s.replace(/pat/g, repl)` — every occurrence. -/
def strReplaceAll (s pat repl : String) : String :=
  match pat.data with
  | [] => s
  | p :: ps => String.mk (chReplaceAll p ps repl.data s.data)

/-- The separator-joined concatenation of a list of strings (what the
spec means by "joins to newline text" and by the blank-line join of the
numbered instructions). -/
def joinSep (sep : String) : List String → String
  | [] => ""
  | [s] => s
  | s :: t :: rest => s ++ sep ++ joinSep sep (t :: rest)

namespace V3

/-- Scanner for the JavaScript regex `/(\d+)C/` (for a given letter `C`):
returns the first maximal digit run immediately followed by `target`.
`acc` holds the current digit run, reversed. -/
def digitRunAux (target : Char) : List Char → List Char → Option String
  | _, [] => none
  | acc, c :: cs =>
    if c.isDigit then digitRunAux target (c :: acc) cs
    else if c = target && acc != [] then some (String.mk acc.reverse)
    else digitRunAux target [] cs

/-- First capture of `timeString.match(/(\d+)C/)` for letter `C`. -/
def digitRunBefore (target : Char) (s : String) : Option String :=
  digitRunAux target [] s.data

/-- `formatTime` (V3, lines 1120–1135) on a string argument:
`PT`-prefixed inputs decompose into `(\d+)H` / `(\d+)M` captures rendered
as `"{h} hours {m} minutes"` (trailing space trimmed); everything else
passes through (`!timeString` returns `''`, which for a string argument
only fires on `""`). -/
def formatTime (timeString : String) : String :=
  if timeString = "" then ""
  else if chStartsWith timeString.data (['P', 'T']) then
    let hours := digitRunBefore 'H' timeString
    let minutes := digitRunBefore 'M' timeString
    let result :=
      (match hours with
       | some h => h ++ " hours "
       | none => "") ++
      (match minutes with
       | some m => m ++ " minutes"
       | none => "")
    strTrim result
  else timeString

/-- `formatTime` on an arbitrary JavaScript value, as called from
`extractJSONLD`: a falsy argument returns `''`; a truthy non-string
throws a `TypeError` at `timeString.match(...)`. -/
def formatTimeJ (j : Json) : Except Unit String :=
  if truthy j then
    match j with
    | .str s => .ok (formatTime s)
    | _ => .error ()
  else .ok ""

/-- `getAuthor` (V3, lines 1137–1142). -/
def getAuthor (author : Json) : Json :=
  if truthy author then
    match author with
    | .str s => .str s
    | _ =>
      let n := jget author "name"
      if truthy n then n else .str ""
  else .str ""

/-- `extractIngredients` (V3, lines 1095–1098): a non-array returns `''`;
an array is joined with `'\n'` by `Array.prototype.join` — note that the
elements are NOT unwrapped, so an object element renders as
`"[object Object]"`. -/
def extractIngredients (ingredients : Json) : String :=
  match ingredients with
  | .arr items => jsArrJoin "\n" items
  | _ => ""

/-- The `text` variable of one step of `extractInstructions` (V3,
lines 1104–1112): a string is itself; otherwise `inst.text` (throwing on
`null`/`undefined`), then `inst.name`, else `''`. -/
def instText (inst : Json) : Except Unit Json :=
  match inst with
  | .str s => .ok (.str s)
  | _ =>
    match jgetE inst "text" with
    | .error e => .error e
    | .ok t =>
      if truthy t then .ok t
      else
        match jgetE inst "name" with
        | .error e => .error e
        | .ok n => .ok (if truthy n then n else .str "")

/-- The `.map((inst, index) => ...)` of `extractInstructions`, carrying
the element index. -/
def instMap : Nat → List Json → Except Unit (List String)
  | _, [] => .ok []
  | i, inst :: rest =>
    match instText inst with
    | .error e => .error e
    | .ok t =>
      match instMap (i + 1) rest with
      | .error e => .error e
      | .ok ys =>
        .ok ((if truthy t then toString (i + 1) ++ ". " ++ jsToString t else "") :: ys)

/-- `extractInstructions` (V3, lines 1100–1118): a non-array returns
`''`; an array is mapped to `"{index+1}. {text}"` (empty text yields
`''`), then `.filter(Boolean).join('\n\n')`. -/
def extractInstructions (instructions : Json) : Except Unit String :=
  match instructions with
  | .arr items =>
    match instMap 0 items with
    | .error e => .error e
    | .ok ys => .ok (joinSep "\n\n" (ys.filter (fun s => s != "")))
  | _ => .ok ""

/-- The record literal built for a matching item in `extractJSONLD`
(V3, lines 1040–1048).  `formatTime` can throw on a truthy non-string
`cookTime`/`totalTime`, and `extractInstructions` can throw on a `null`
step; either throw is caught by the per-block `try` and skips the block. -/
structure LdRecord where
  name : Json
  description : Json
  ingredients : Json
  instructions : Json
  cookTime : Json
  servings : Json
  author : Json

/-- `item['@type'] === 'Recipe'` — the V3 check is a strict scalar
comparison; an array-valued `@type` never matches. -/
def typeIsRecipeScalar : Json → Bool
  | .str s => s == "Recipe"
  | _ => false

/-- Builds the V3 structured-data record for a `Recipe` item. -/
def buildRecord (item : Json) : Except Unit LdRecord :=
  match extractInstructions (jget item "recipeInstructions") with
  | .error e => .error e
  | .ok ins =>
    match formatTimeJ (jsOr (jget item "cookTime") (jget item "totalTime")) with
    | .error e => .error e
    | .ok ct =>
      .ok
        { name := jsOr (jget item "name") (.str "")
          description := jsOr (jget item "description") (.str "")
          ingredients := .str (extractIngredients (jget item "recipeIngredient"))
          instructions := .str ins
          cookTime := jsOr (.str ct) (.str "")
          servings := jsOr (jget item "recipeYield") (jsOr (jget item "yield") (.str ""))
          author := jsOr (getAuthor (jget item "author")) (.str "") }

/-- The inner `for (const item of items)` loop of `extractJSONLD`:
reading `item['@type']` throws on a `null` item. -/
def scanItems : List Json → Except Unit (Option LdRecord)
  | [] => .ok none
  | item :: rest =>
    match jgetE item "@type" with
    | .error e => .error e
    | .ok t =>
      if typeIsRecipeScalar t then
        match buildRecord item with
        | .error e => .error e
        | .ok r => .ok (some r)
      else scanItems rest

/-- `Array.isArray(data) ? data : [data]`. -/
def itemsOf : Json → List Json
  | .arr items => items
  | j => [j]

/-- `extractJSONLD` (V3, lines 1024–1061) over the document-order list of
JSON-LD script blocks.  A block is `none` when its text fails
`JSON.parse`; any throw inside a block's `try` makes the loop `continue`
with the next block. -/
def extractJSONLD : List (Option Json) → Option LdRecord
  | [] => none
  | none :: rest => extractJSONLD rest
  | some data :: rest =>
    match scanItems (itemsOf data) with
    | .error _ => extractJSONLD rest
    | .ok none => extractJSONLD rest
    | .ok (some r) => some r

end V3

namespace V3

/-- A fetched HTML document, carrying the regex-level observations the V3
parser makes on the raw text: the document-order JSON-LD script blocks
(each block already run through `JSON.parse`, `none` = parse failure) and
the first captures of the `<title>` / `<h1>` / meta-description /
og-description patterns (`none` = pattern does not match; the capture
groups `([^<]+)` and `([^"']+)` cannot produce `""`, but the checks of
the source are kept). -/
structure HtmlDoc where
  ldBlocks : List (Option Json)
  titleTag : Option String
  h1Tag : Option String
  metaDescription : Option String
  ogDescription : Option String

/-- The `match[1].trim().replace(/&quot;/g, '"').replace(/&amp;/g, '&')`
cleanup of `extractTitle`. -/
def titleClean (s : String) : String :=
  strReplaceAll (strReplaceAll (strTrim s) "&quot;" "\x22") "&amp;" "&"

/-- `extractTitle` (V3, lines 1063–1077): first of the `<title>` and
`<h1>` captures that is non-empty, cleaned; else `''`. -/
def extractTitle (d : HtmlDoc) : String :=
  match d.titleTag with
  | some s =>
    if s != "" then titleClean s
    else
      match d.h1Tag with
      | some h => if h != "" then titleClean h else ""
      | none => ""
  | none =>
    match d.h1Tag with
    | some h => if h != "" then titleClean h else ""
    | none => ""

/-- `extractMetaDescription` (V3, lines 1079–1093): first of the
`name="description"` and `og:description` captures that is longer than 20
characters, trimmed; else `''`. -/
def extractMetaDescription (d : HtmlDoc) : String :=
  match d.metaDescription with
  | some s =>
    if s != "" && s.length > 20 then strTrim s
    else
      match d.ogDescription with
      | some o => if o != "" && o.length > 20 then strTrim o else ""
      | none => ""
  | none =>
    match d.ogDescription with
    | some o => if o != "" && o.length > 20 then strTrim o else ""
    | none => ""

/-- JavaScript `String.prototype.replace` with a string pattern replaces
only the first occurrence. -/
def replaceFirst (s pat repl : String) : String :=
  strReplaceFirst s pat repl

/-- The `siteNames` lookup table of `getSiteName` (V3, lines 969–976).
The `Bon App√©tit` entry reproduces the mojibake present in the source. -/
def siteNames : List (String × String) :=
  [("allrecipes.com", "AllRecipes"),
   ("foodnetwork.com", "Food Network"),
   ("bonappetit.com", "Bon App√©tit"),
   ("epicurious.com", "Epicurious"),
   ("tasty.co", "Tasty"),
   ("food.com", "Food.com")]

/-- Outcome of the outbound `fetch`: a 2xx response whose text parses
into `doc`; a non-2xx response (the handler then throws `HTTP {status}:
{statusText}`); a rejected fetch; or the 8-second abort timeout. -/
inductive FetchResult where
  | success (doc : HtmlDoc)
  | httpError (status : Nat) (statusText : String)
  | netError
  | timeout

/-- External environment of one request: `new URL(u).hostname` (with
`none` for a throwing constructor) and the outcome of `fetch(u, ...)`. -/
structure World where
  parseHost : String → Option String
  fetch : String → FetchResult

/-- `getSiteName` (V3, lines 964–982). -/
def getSiteName (w : World) (url : String) : String :=
  match w.parseHost url with
  | none => "Unknown Site"
  | some host =>
    let hostname := replaceFirst host "www." ""
    match siteNames.find? (fun p => p.1 == hostname) with
    | some p => p.2
    | none => hostname

/-- The normalized output record (V3).  Fields hold `Json` values
because the structured-data path copies raw `JSON.parse` output into
`name`/`description`/`servings`/`author`. -/
structure RecipeRecord where
  name : Json
  description : Json
  ingredients : Json
  instructions : Json
  cookTime : Json
  servings : Json
  author : Json
  siteName : Json
  source : Json

/-- `parseRecipe` (V3, lines 984–1022).  The trailing `catch` branch
(`source: 'error-fallback'`) is unreachable in this model: `extractJSONLD`
swallows its own errors and the title/description extractors are total. -/
def parseRecipe (doc : HtmlDoc) (siteName : String) : RecipeRecord :=
  match extractJSONLD doc.ldBlocks with
  | some r =>
    { name := r.name
      description := r.description
      ingredients := r.ingredients
      instructions := r.instructions
      cookTime := r.cookTime
      servings := r.servings
      author := r.author
      siteName := .str siteName
      source := .str "structured-data" }
  | none =>
    { name := jsOr (.str (extractTitle doc)) (.str ("Recipe from " ++ siteName))
      description := jsOr (.str (extractMetaDescription doc)) (.str "")
      ingredients := .str "Please add ingredients manually (auto-extraction failed)"
      instructions := .str "Please add cooking instructions manually. Full recipe available at the linked URL."
      cookTime := .str ""
      servings := .str ""
      author := .str ""
      siteName := .str siteName
      source := .str "basic-html" }

/-- The recipe object of the handler's `catch` fallback response
(V3, lines 942–952). -/
def fallbackRecipe (siteName : String) : RecipeRecord :=
  { name := .str ("Recipe from " ++ siteName)
    description := .str ("Recipe imported from " ++ siteName)
    ingredients := .str "Please add ingredients manually"
    instructions := .str "Please add cooking instructions manually. Full recipe available at the linked URL."
    cookTime := .str ""
    servings := .str ""
    author := .str ""
    siteName := .str siteName
    source := .str "fallback" }

/-- Body of a handler response (the CORS headers and `debug` payload are
not modelled; no claim mentions them). -/
inductive RespBody where
  | empty
  | errJson (error : String)
  | okJson (success : Bool) (recipe : RecipeRecord) (source : Json) (message : Option String)

/-- An HTTP response of the handler. -/
structure Response where
  statusCode : Nat
  body : RespBody

/-- The `catch` block of the V3 handler (lines 931–961): status 200 with
the fallback recipe. -/
def fallbackResponse (siteName : String) : Response :=
  ⟨200, .okJson true (fallbackRecipe siteName) (.str "fallback")
    (some "Could not parse recipe automatically. Please add details manually.")⟩

/-- `exports.handler` (V3, lines 845–962).  `parsedBody` is the outcome
of `JSON.parse(event.body || '{}')` — `none` when the parse throws, in
which case control reaches the `catch` with `url` still `undefined`.
Failures after the missing-`url` check (`new URL(url)` throwing, fetch
rejection, timeout, non-2xx status) all land in the same `catch`, where
`url` is truthy, so `siteName = getSiteName(url)`. -/
def handler (w : World) (httpMethod : String) (parsedBody : Option Json) : Response :=
  if httpMethod = "OPTIONS" then ⟨200, .empty⟩
  else if httpMethod ≠ "POST" then ⟨405, .errJson "Method not allowed"⟩
  else
    match parsedBody with
    | none => fallbackResponse "Unknown Site"
    | some body =>
      let url := jget body "url"
      if truthy url then
        let urlStr := jsToString url
        match w.parseHost urlStr with
        | none => fallbackResponse (getSiteName w urlStr)
        | some _ =>
          let siteName := getSiteName w urlStr
          match w.fetch urlStr with
          | .success doc =>
            let recipeData := parseRecipe doc siteName
            ⟨200, .okJson true recipeData recipeData.source none⟩
          | .httpError _ _ => fallbackResponse siteName
          | .netError => fallbackResponse siteName
          | .timeout => fallbackResponse siteName
      else ⟨400, .errJson "URL is required"⟩

end V3

namespace V1

/-- The `@type` check of V1's `extractStructuredData` (lines 178–179):
`item['@type'] === 'Recipe' || (Array.isArray(item['@type']) &&
item['@type'].includes('Recipe'))` — a scalar string or an array of type
names both match. -/
def typeIncludesRecipe : Json → Bool
  | .str s => s == "Recipe"
  | .arr tys => tys.any (fun t =>
      match t with
      | .str s => s == "Recipe"
      | _ => false)
  | _ => false

/-- One element of V1's `extractIngredients` map (line 424):
`typeof ing === 'string' ? ing : (ing.text || '')`; `ing.text` throws on
`null`/`undefined`. -/
def ingElem : Json → Except Unit Json
  | .str s => .ok (.str s)
  | ing =>
    match jgetE ing "text" with
    | .error e => .error e
    | .ok t => .ok (jsOr t (.str ""))

/-- The `.map(...)` of V1's `extractIngredients`. -/
def ingMap : List Json → Except Unit (List Json)
  | [] => .ok []
  | ing :: rest =>
    match ingElem ing with
    | .error e => .error e
    | .ok y =>
      match ingMap rest with
      | .error e => .error e
      | .ok ys => .ok (y :: ys)

/-- `extractIngredients` (V1, lines 420–430): non-arrays return `''`;
elements are unwrapped (`ing` or `ing.text`), filtered by truthiness and
joined with `'\n'`; a throw is caught and returns `''`. -/
def extractIngredients (ingredients : Json) : String :=
  match ingredients with
  | .arr items =>
    match ingMap items with
    | .error _ => ""
    | .ok ys => jsArrJoin "\n" (ys.filter truthy)
  | _ => ""

/-- `extractInstructions` (V1, lines 432–454): the same numbered map as
V3 (`V3.instMap`), with V1's own `try` turning a throw into `''`. -/
def extractInstructions (instructions : Json) : String :=
  match instructions with
  | .arr items =>
    match V3.instMap 0 items with
    | .error _ => ""
    | .ok ys => joinSep "\n\n" (ys.filter (fun s => s != ""))
  | _ => ""

/-- The record literal of V1's `extractStructuredData` (lines 181–190). -/
structure LdRecord where
  name : Json
  description : Json
  ingredients : Json
  instructions : Json
  cookTime : Json
  servings : Json
  author : Json
  source : Json

/-- Builds the V1 structured-data record for a matching item.  All field
expressions are total: the ingredient/instruction helpers catch their own
throws and `item.author?.name` uses optional chaining. -/
def buildRecord (item : Json) : LdRecord :=
  { name := jsOr (jget item "name") (.str "")
    description := jsOr (jget item "description") (.str "")
    ingredients := .str (extractIngredients (jsOr (jget item "recipeIngredient") (.arr [])))
    instructions := .str (extractInstructions (jsOr (jget item "recipeInstructions") (.arr [])))
    cookTime := jsOr (jget item "cookTime") (jsOr (jget item "totalTime") (.str ""))
    servings := jsOr (jget item "recipeYield") (jsOr (jget item "yield") (.str ""))
    author := jsOr (jsOptChain (jget item "author") "name") (jsOr (jget item "author") (.str ""))
    source := .str "structured-data" }

/-- The inner item loop of V1's `extractStructuredData`; reading
`item['@type']` throws on a `null` item. -/
def scanItems : List Json → Except Unit (Option LdRecord)
  | [] => .ok none
  | item :: rest =>
    match jgetE item "@type" with
    | .error e => .error e
    | .ok t =>
      if typeIncludesRecipe t then .ok (some (buildRecord item))
      else scanItems rest

/-- `extractStructuredData` (V1, lines 165–204) over the document-order
JSON-LD script blocks; `none` stands for a block whose text is empty
(`if (!jsonText) continue`) or fails `JSON.parse` — both `continue`. -/
def extractStructuredData : List (Option Json) → Option LdRecord
  | [] => none
  | none :: rest => extractStructuredData rest
  | some data :: rest =>
    match scanItems (V3.itemsOf data) with
    | .error _ => extractStructuredData rest
    | .ok none => extractStructuredData rest
    | .ok (some r) => some r

end V1

/-!
Helper definitions and lemmas shared by the claim theorems.
-/

/-- A string with a non-empty prefix appended in front is non-empty. -/
theorem prepend_ne_empty (p s : String) (hp : p.data ≠ []) : p ++ s ≠ "" := by
  intro h
  apply hp
  have hd : (p ++ s).data = ([] : List Char) := by rw [h]
  rw [String.data_append] at hd
  exact (List.append_eq_nil.mp hd).1

/-- `jsArrJoin` on a list of strings is the plain separator-join. -/
theorem jsArrJoin_map_str (sep : String) (l : List String) :
    jsArrJoin sep (l.map Json.str) = joinSep sep l := by
  induction l with
  | nil => rfl
  | cons s t ih =>
    cases t with
    | nil => rfl
    | cons s2 t2 =>
      simp only [List.map, jsArrJoin, joinSep, jsToString] at ih ⊢
      rw [ih]

/-!
Claim theorems.
-/

/-- Claim C6: `formatTime` maps input strings beginning with `PT` by
decomposing the hour and minute captures and rendering
`"{h} hours {m} minutes"` with absent components omitted and the trailing
space trimmed, and passes every non-`PT`-prefixed input through
unchanged; concretely `formatTime "PT1H30M" = "1 hours 30 minutes"`,
`formatTime "PT45M" = "45 minutes"` and
`formatTime "not-iso" = "not-iso"`. -/
theorem c6_formatTime_duration (s : String)
    (h : chStartsWith s.data (['P', 'T']) = false) :
    V3.formatTime s = s ∧
    V3.formatTime "PT1H30M" = "1 hours 30 minutes" ∧
    V3.formatTime "PT45M" = "45 minutes" ∧
    V3.formatTime "not-iso" = "not-iso" := by
  refine ⟨?_, by decide, by decide, by decide⟩
  unfold V3.formatTime
  by_cases hs : s = ""
  · simp [hs]
  · simp [hs, h]

/-- Witness for C6 at the concrete passthrough input `"not-iso"`. -/
theorem c6_formatTime_duration_witness :
    chStartsWith ("not-iso".data) (['P', 'T']) = false ∧
    (V3.formatTime "not-iso" = "not-iso" ∧
     V3.formatTime "PT1H30M" = "1 hours 30 minutes" ∧
     V3.formatTime "PT45M" = "45 minutes" ∧
     V3.formatTime "not-iso" = "not-iso") :=
  ⟨by decide, c6_formatTime_duration "not-iso" (by decide)⟩

/-- Claim C9: a POST request whose body fails `JSON.parse` (so the parse
throws before the missing-`url` check) is answered with HTTP 200,
`success: true` and the fallback record whose `siteName` is the sentinel
`"Unknown Site"` — not with a 400 input error. -/
theorem c9_unparseable_body_fallback (w : V3.World) :
    (V3.handler w "POST" none).statusCode = 200 ∧
    (V3.handler w "POST" none).body =
      .okJson true (V3.fallbackRecipe "Unknown Site") (.str "fallback")
        (some "Could not parse recipe automatically. Please add details manually.") ∧
    (V3.fallbackRecipe "Unknown Site").siteName = .str "Unknown Site" ∧
    (V3.fallbackRecipe "Unknown Site").source = .str "fallback" ∧
    (V3.handler w "POST" none).statusCode ≠ 400 := by
  have h200 : (V3.handler w "POST" none).statusCode = 200 := rfl
  refine ⟨h200, rfl, rfl, rfl, ?_⟩
  rw [h200]
  decide

/-- Claim C10: instruction numbering uses each step's original index
(`index + 1`) and empty steps are filtered out only after numbering, so a
skipped empty step leaves a gap: `["", s]` yields `"2. " ++ s` (in both
the V3 and the V1 revision of `extractInstructions`), which differs from
`"1. " ++ s`. -/
theorem c10_numbering_gap (s : String) (h : s ≠ "") :
    V3.extractInstructions (.arr [.str "", .str s]) = .ok ("2. " ++ s) ∧
    V1.extractInstructions (.arr [.str "", .str s]) = "2. " ++ s ∧
    "2. " ++ s ≠ "1. " ++ s := by
  have hb : (s != "") = true := bne_iff_ne.mpr h
  have e2 : (toString (2 : Nat) ++ ". " : String) = "2. " := by decide
  have hne : ((toString (2 : Nat) ++ ". " ++ s) != "") = true := by
    rw [e2]
    exact bne_iff_ne.mpr (prepend_ne_empty "2. " s (by decide))
  refine ⟨?_, ?_, ?_⟩
  · simp [V3.extractInstructions, V3.instMap, V3.instText, truthy, jsToString, hb,
      joinSep, hne, e2]
  · simp [V1.extractInstructions, V3.instMap, V3.instText, truthy, jsToString, hb,
      joinSep, hne, e2]
  · intro hEq
    have hd : some '2' = some '1' := congrArg List.head? (congrArg String.data hEq)
    exact absurd hd (by decide)

/-- Witness for C10 at the concrete input `["", "Mix batter"]`. -/
theorem c10_numbering_gap_witness :
    ("Mix batter" : String) ≠ "" ∧
    (V3.extractInstructions (.arr [.str "", .str "Mix batter"]) = .ok ("2. " ++ "Mix batter") ∧
     V1.extractInstructions (.arr [.str "", .str "Mix batter"]) = "2. " ++ "Mix batter" ∧
     "2. " ++ "Mix batter" ≠ "1. " ++ "Mix batter") :=
  ⟨by decide, c10_numbering_gap "Mix batter" (by decide)⟩

/-- Claim C4: a malformed (unparseable) JSON-LD block is swallowed and
skipped without aborting the scan — deleting it anywhere in the block
list leaves the result unchanged — and concretely a bad block followed by
a well-formed `Recipe` block still extracts that recipe. -/
theorem c4_malformed_block_skipped (xs ys : List (Option Json)) :
    V3.extractJSONLD (xs ++ none :: ys) = V3.extractJSONLD (xs ++ ys) ∧
    V3.extractJSONLD
        [none, some (.obj [("@type", .str "Recipe"), ("name", .str "Good Cake")])] =
      some
        { name := .str "Good Cake", description := .str "", ingredients := .str "",
          instructions := .str "", cookTime := .str "", servings := .str "",
          author := .str "" } := by
  constructor
  · induction xs with
    | nil => rfl
    | cons x xs ih =>
      cases x with
      | none =>
        simpa only [List.cons_append, V3.extractJSONLD] using ih
      | some d =>
        cases hs : V3.scanItems (V3.itemsOf d) with
        | error e =>
          simp only [List.cons_append, V3.extractJSONLD, hs]
          exact ih
        | ok o =>
          cases o with
          | none =>
            simp only [List.cons_append, V3.extractJSONLD, hs]
            exact ih
          | some r =>
            simp only [List.cons_append, V3.extractJSONLD, hs]
  · rfl

/-- Counterexample to claim C5: the V3 `extractIngredients` does not
unwrap `{text}` ingredient objects — `[{text: "2 cups flour"}]` joins to
the JavaScript object stringification `"[object Object]"`, not to the
ingredient text. -/
theorem c5_counterexample :
    V3.extractIngredients (.arr [.obj [("text", .str "2 cups flour")]]) =
      "[object Object]" ∧
    V3.extractIngredients (.arr [.obj [("text", .str "2 cups flour")]]) ≠
      "2 cups flour" :=
  ⟨rfl, by decide⟩

/-- Claim C5 as amended: for a JSON-LD `Recipe`, a `recipeIngredient`
list of strings is joined to newline-separated text (but `{text}` objects
are not unwrapped by the V3 helper — they render as `"[object Object]"`,
see the counterexample), and `recipeInstructions` (strings, `{text}` or
`{name}` items) becomes numbered, blank-line-joined text preserving input
order; concretely `["Preheat oven", "Mix batter"]` produces
`"1. Preheat oven\n\n2. Mix batter"`, as do `{text}`/`{name}` items. -/
theorem c5_ingredient_instruction_join (l : List String) :
    V3.extractIngredients (.arr (l.map Json.str)) = joinSep "\n" l ∧
    V3.extractInstructions (.arr [.str "Preheat oven", .str "Mix batter"]) =
      .ok ("1. Preheat oven\n\n2. Mix batter") ∧
    V3.extractInstructions
        (.arr [.obj [("text", .str "Preheat oven")], .obj [("name", .str "Mix batter")]]) =
      .ok ("1. Preheat oven\n\n2. Mix batter") := by
  refine ⟨?_, by rfl, by rfl⟩
  show jsArrJoin "\n" (l.map Json.str) = joinSep "\n" l
  exact jsArrJoin_map_str "\n" l

/-!
Selection-order predicates for the JSON-LD scan (used to state the
first-match claims).
-/

/-- A block that V1's scan passes over: malformed, or its items contain
no `Recipe`-typed object before the loop either ends or throws. -/
def blockNoMatchV1 : Option Json → Bool
  | none => true
  | some d =>
    match V1.scanItems (V3.itemsOf d) with
    | .ok (some _) => false
    | _ => true

/-- An item whose `@type` reads without throwing and does not include
`Recipe` (in V1's scalar-or-array sense). -/
def itemNoMatchV1 (it : Json) : Bool :=
  match jgetE it "@type" with
  | .ok t => !V1.typeIncludesRecipe t
  | .error _ => false

/-- An item whose `@type` reads without throwing and includes `Recipe`. -/
def itemMatchesV1 (it : Json) : Bool :=
  match jgetE it "@type" with
  | .ok t => V1.typeIncludesRecipe t
  | .error _ => false

/-- Blocks that produce no V1 match are skipped without affecting the
rest of the scan. -/
theorem extractStructuredData_skip_noMatch (pre rest : List (Option Json))
    (h : pre.all blockNoMatchV1 = true) :
    V1.extractStructuredData (pre ++ rest) = V1.extractStructuredData rest := by
  induction pre with
  | nil => rfl
  | cons b pre ih =>
    rw [List.all_cons, Bool.and_eq_true] at h
    obtain ⟨hb, hrest⟩ := h
    cases b with
    | none => simpa only [List.cons_append, V1.extractStructuredData] using ih hrest
    | some d =>
      cases hs : V1.scanItems (V3.itemsOf d) with
      | error e =>
        simp only [List.cons_append, V1.extractStructuredData, hs]
        exact ih hrest
      | ok o =>
        cases o with
        | none =>
          simp only [List.cons_append, V1.extractStructuredData, hs]
          exact ih hrest
        | some r =>
          exfalso
          simp [blockNoMatchV1, hs] at hb

/-- Items that are not `Recipe`-typed are passed over by V1's item loop. -/
theorem scanItemsV1_skip_noMatch (before l : List Json)
    (h : before.all itemNoMatchV1 = true) :
    V1.scanItems (before ++ l) = V1.scanItems l := by
  induction before with
  | nil => rfl
  | cons it before ih =>
    rw [List.all_cons, Bool.and_eq_true] at h
    obtain ⟨hi, hrest⟩ := h
    unfold itemNoMatchV1 at hi
    cases hg : jgetE it "@type" with
    | error e =>
      rw [hg] at hi
      simp at hi
    | ok t =>
      rw [hg] at hi
      rw [Bool.not_eq_eq_eq_not, Bool.not_true] at hi
      simp only [List.cons_append, V1.scanItems, hg, hi, Bool.false_eq_true, if_false]
      exact ih hrest

/-- Counterexample to claim C2: the V3 `extractJSONLD` never matches an
object whose `@type` is an array of type names — a lone block holding a
`Recipe` whose `@type` is `["Recipe"]` (a type set that does include
`"Recipe"`, as the V1 check confirms) extracts nothing. -/
theorem c2_counterexample :
    V3.extractJSONLD
        [some (.obj [("@type", .arr [.str "Recipe"]), ("name", .str "Array Cake")])] =
      none ∧
    V1.typeIncludesRecipe (.arr [.str "Recipe"]) = true :=
  ⟨rfl, rfl⟩

/-- Claim C2 as amended: V1's `extractStructuredData` selects the first
object whose type set (scalar `@type` or array of type names) includes
`"Recipe"` — the first match in document order wins and neither the later
items of its block nor the later blocks are considered; V3's
`extractJSONLD`, by contrast, compares `@type` only as a scalar, so its
item loop passes over any object whose `@type` is an array. -/
theorem c2_first_match_wins
    (pre post : List (Option Json)) (d item item2 : Json)
    (before after rest2 tys : List Json)
    (hpre : pre.all blockNoMatchV1 = true)
    (hd : V3.itemsOf d = before ++ item :: after)
    (hbefore : before.all itemNoMatchV1 = true)
    (hitem : itemMatchesV1 item = true)
    (h2 : jget item2 "@type" = .arr tys) :
    V1.extractStructuredData (pre ++ some d :: post) = some (V1.buildRecord item) ∧
    V3.scanItems (item2 :: rest2) = V3.scanItems rest2 := by
  constructor
  · rw [extractStructuredData_skip_noMatch pre _ hpre]
    unfold itemMatchesV1 at hitem
    cases hg : jgetE item "@type" with
    | error e =>
      rw [hg] at hitem
      exact (Bool.false_ne_true (hitem : false = true)).elim
    | ok t =>
      rw [hg] at hitem
      have hit : V1.typeIncludesRecipe t = true := hitem
      have hscan : V1.scanItems (V3.itemsOf d) = .ok (some (V1.buildRecord item)) := by
        rw [hd, scanItemsV1_skip_noMatch before _ hbefore]
        simp only [V1.scanItems, hg]
        rw [if_pos hit]
      simp only [V1.extractStructuredData, hscan]
  · have hob : jgetE item2 "@type" = .ok (.arr tys) := by
      cases item2 with
      | obj fields => exact congrArg Except.ok h2
      | null => exact absurd h2 (by simp [jget])
      | undefined => exact absurd h2 (by simp [jget])
      | bool b => exact absurd h2 (by simp [jget])
      | num n => exact absurd h2 (by simp [jget])
      | str s => exact absurd h2 (by simp [jget])
      | arr xs => exact absurd h2 (by simp [jget])
    simp only [V3.scanItems, hob, V3.typeIsRecipeScalar, Bool.false_eq_true, if_false]

/-- Witness for C2 at a concrete scan: a malformed block, then a block
whose items are a `Person` followed by an array-typed `Recipe`, then a
later `Recipe` block that is never reached. -/
theorem c2_first_match_wins_witness :
    ([none] : List (Option Json)).all blockNoMatchV1 = true ∧
    V3.itemsOf
        (.arr [.obj [("@type", .str "Person")],
               .obj [("@type", .arr [.str "Recipe"]), ("name", .str "Pie")]]) =
      [.obj [("@type", .str "Person")]] ++
        .obj [("@type", .arr [.str "Recipe"]), ("name", .str "Pie")] :: [] ∧
    ([.obj [("@type", .str "Person")]] : List Json).all itemNoMatchV1 = true ∧
    itemMatchesV1 (.obj [("@type", .arr [.str "Recipe"]), ("name", .str "Pie")]) = true ∧
    jget (.obj [("@type", .arr [.str "Recipe"])]) "@type" = .arr [.str "Recipe"] ∧
    (V1.extractStructuredData
        ([none] ++ some (.arr [.obj [("@type", .str "Person")],
            .obj [("@type", .arr [.str "Recipe"]), ("name", .str "Pie")]]) ::
          [some (.obj [("@type", .str "Recipe"), ("name", .str "Later")])]) =
      some (V1.buildRecord (.obj [("@type", .arr [.str "Recipe"]), ("name", .str "Pie")])) ∧
     V3.scanItems [.obj [("@type", .arr [.str "Recipe"])]] = V3.scanItems []) :=
  ⟨rfl, rfl, rfl, rfl, rfl,
   c2_first_match_wins [none]
     [some (.obj [("@type", .str "Recipe"), ("name", .str "Later")])]
     (.arr [.obj [("@type", .str "Person")],
            .obj [("@type", .arr [.str "Recipe"]), ("name", .str "Pie")]])
     (.obj [("@type", .arr [.str "Recipe"]), ("name", .str "Pie")])
     (.obj [("@type", .arr [.str "Recipe"])])
     [.obj [("@type", .str "Person")]] [] [] [.str "Recipe"]
     rfl rfl rfl rfl rfl⟩

/-- Counterexample to claim C3: in the V3 pipeline a successfully
fetched page with no JSON-LD `Recipe` block is tagged
`source = "basic-html"` (a value outside the claimed three-value set),
not `"html-parsing"`, and its `ingredients` field is a manual-entry
placeholder rather than an empty-but-present string. -/
theorem c3_counterexample :
    (V3.parseRecipe ⟨[], some "My Cake", none, none, none⟩ "x.com").source =
      .str "basic-html" ∧
    (V3.parseRecipe ⟨[], some "My Cake", none, none, none⟩ "x.com").source ≠
      .str "html-parsing" ∧
    (V3.parseRecipe ⟨[], some "My Cake", none, none, none⟩ "x.com").ingredients ≠
      .str "" := by
  refine ⟨rfl, ?_, ?_⟩
  · intro hEq
    have hs : ("basic-html" : String) = "html-parsing" :=
      Json.str.inj ((rfl :
        (V3.parseRecipe ⟨[], some "My Cake", none, none, none⟩ "x.com").source =
          .str "basic-html").symm.trans hEq)
    exact absurd hs (by decide)
  · intro hEq
    have hs : ("Please add ingredients manually (auto-extraction failed)" : String) = "" :=
      Json.str.inj ((rfl :
        (V3.parseRecipe ⟨[], some "My Cake", none, none, none⟩ "x.com").ingredients =
          .str "Please add ingredients manually (auto-extraction failed)").symm.trans hEq)
    exact absurd hs (by decide)

/-- Claim C3 as amended: the `source` of a V3 `parseRecipe` record is
`"structured-data"` or `"basic-html"` (never `"html-parsing"`; the
handler's catch adds `"fallback"`), and a successfully fetched page with
no JSON-LD `Recipe` yields `source = "basic-html"` with the cleaned page
`<title>` captured as `name`, empty-but-present `description` (when no
meta description matches), `cookTime`, `servings` and `author`, and fixed
manual-entry placeholder strings — not empty strings — for `ingredients`
and `instructions`. -/
theorem c3_basic_html_path (doc : V3.HtmlDoc) (sn t : String)
    (hld : V3.extractJSONLD doc.ldBlocks = none)
    (ht : doc.titleTag = some t) (ht0 : t ≠ "")
    (htc : V3.titleClean t ≠ "")
    (hmd : doc.metaDescription = none) (hog : doc.ogDescription = none) :
    (V3.parseRecipe doc sn).source = .str "basic-html" ∧
    (V3.parseRecipe doc sn).name = .str (V3.titleClean t) ∧
    (V3.parseRecipe doc sn).description = .str "" ∧
    (V3.parseRecipe doc sn).ingredients =
      .str "Please add ingredients manually (auto-extraction failed)" ∧
    (V3.parseRecipe doc sn).instructions =
      .str "Please add cooking instructions manually. Full recipe available at the linked URL." ∧
    (V3.parseRecipe doc sn).cookTime = .str "" ∧
    (V3.parseRecipe doc sn).servings = .str "" ∧
    (V3.parseRecipe doc sn).author = .str "" ∧
    (V3.parseRecipe doc sn).siteName = .str sn := by
  have hT : V3.extractTitle doc = V3.titleClean t := by
    unfold V3.extractTitle
    rw [ht]
    simp [bne_iff_ne.mpr ht0]
  have hM : V3.extractMetaDescription doc = "" := by
    unfold V3.extractMetaDescription
    rw [hmd, hog]
  unfold V3.parseRecipe
  rw [hld]
  refine ⟨rfl, ?_, ?_, rfl, rfl, rfl, rfl, rfl, rfl⟩
  · show jsOr (.str (V3.extractTitle doc)) (.str ("Recipe from " ++ sn)) =
      .str (V3.titleClean t)
    rw [hT]
    unfold jsOr
    simp [truthy, bne_iff_ne.mpr htc]
  · show jsOr (.str (V3.extractMetaDescription doc)) (.str "") = .str ""
    rw [hM]
    rfl

/-- Witness for C3 (amended) at a concrete no-JSON-LD document with a
plain page title. -/
theorem c3_basic_html_path_witness :
    V3.extractJSONLD ((⟨[], some "Chocolate Cake", none, none, none⟩ :
        V3.HtmlDoc).ldBlocks) = none ∧
    (⟨[], some "Chocolate Cake", none, none, none⟩ : V3.HtmlDoc).titleTag =
      some "Chocolate Cake" ∧
    ("Chocolate Cake" : String) ≠ "" ∧
    V3.titleClean "Chocolate Cake" ≠ "" ∧
    ((V3.parseRecipe ⟨[], some "Chocolate Cake", none, none, none⟩ "example.com").source =
        .str "basic-html" ∧
     (V3.parseRecipe ⟨[], some "Chocolate Cake", none, none, none⟩ "example.com").name =
        .str (V3.titleClean "Chocolate Cake") ∧
     (V3.parseRecipe ⟨[], some "Chocolate Cake", none, none, none⟩ "example.com").description =
        .str "" ∧
     (V3.parseRecipe ⟨[], some "Chocolate Cake", none, none, none⟩ "example.com").ingredients =
        .str "Please add ingredients manually (auto-extraction failed)" ∧
     (V3.parseRecipe ⟨[], some "Chocolate Cake", none, none, none⟩ "example.com").instructions =
        .str "Please add cooking instructions manually. Full recipe available at the linked URL." ∧
     (V3.parseRecipe ⟨[], some "Chocolate Cake", none, none, none⟩ "example.com").cookTime =
        .str "" ∧
     (V3.parseRecipe ⟨[], some "Chocolate Cake", none, none, none⟩ "example.com").servings =
        .str "" ∧
     (V3.parseRecipe ⟨[], some "Chocolate Cake", none, none, none⟩ "example.com").author =
        .str "" ∧
     (V3.parseRecipe ⟨[], some "Chocolate Cake", none, none, none⟩ "example.com").siteName =
        .str "example.com") :=
  ⟨rfl, rfl, by decide, by decide,
   c3_basic_html_path ⟨[], some "Chocolate Cake", none, none, none⟩ "example.com"
     "Chocolate Cake" rfl rfl (by decide) (by decide) rfl rfl⟩

/-- Claim C7: a missing (falsy) `url` field is the only failure the V3
handler surfaces with a non-200 status — it answers 400 exactly when the
method is POST, the body parses and its `url` is missing/falsy; 405
exactly for non-POST, non-OPTIONS methods; and 200 in every other case,
including every fetch and extraction failure. -/
theorem c7_status_codes (w : V3.World) (method : String) (pb : Option Json) :
    ((V3.handler w method pb).statusCode = 405 ↔
      (method ≠ "POST" ∧ method ≠ "OPTIONS")) ∧
    ((V3.handler w method pb).statusCode = 400 ↔
      (method = "POST" ∧ ∃ b, pb = some b ∧ truthy (jget b "url") = false)) ∧
    ((V3.handler w method pb).statusCode = 200 ∨
     (V3.handler w method pb).statusCode = 400 ∨
     (V3.handler w method pb).statusCode = 405) := by
  unfold V3.handler
  by_cases hO : method = "OPTIONS"
  · subst hO
    simp
  · by_cases hP : method = "POST"
    · subst hP
      simp only [if_neg hO, ne_eq, not_true_eq_false, if_false, if_neg]
      cases pb with
      | none => simp [V3.fallbackResponse, hO]
      | some b =>
        by_cases hu : truthy (jget b "url") = true
        · cases hh : w.parseHost (jsToString (jget b "url")) with
          | none => simp [hu, hh, V3.fallbackResponse, hO]
          | some host =>
            cases hf : w.fetch (jsToString (jget b "url")) with
            | success doc => simp [hu, hh, hf, hO]
            | httpError st stx => simp [hu, hh, hf, V3.fallbackResponse, hO]
            | netError => simp [hu, hh, hf, V3.fallbackResponse, hO]
            | timeout => simp [hu, hh, hf, V3.fallbackResponse, hO]
        · have hu' : truthy (jget b "url") = false := by simpa using hu
          simp [hu', hO]
    · have h405 : (if method = "OPTIONS" then (⟨200, .empty⟩ : V3.Response)
          else if method ≠ "POST" then ⟨405, .errJson "Method not allowed"⟩
          else (match pb with
            | none => V3.fallbackResponse "Unknown Site"
            | some body =>
              if truthy (jget body "url") then
                match w.parseHost (jsToString (jget body "url")) with
                | none => V3.fallbackResponse (V3.getSiteName w (jsToString (jget body "url")))
                | some _ =>
                  match w.fetch (jsToString (jget body "url")) with
                  | .success doc =>
                    ⟨200, .okJson true (V3.parseRecipe doc (V3.getSiteName w (jsToString (jget body "url"))))
                      (V3.parseRecipe doc (V3.getSiteName w (jsToString (jget body "url")))).source none⟩
                  | .httpError _ _ => V3.fallbackResponse (V3.getSiteName w (jsToString (jget body "url")))
                  | .netError => V3.fallbackResponse (V3.getSiteName w (jsToString (jget body "url")))
                  | .timeout => V3.fallbackResponse (V3.getSiteName w (jsToString (jget body "url")))
              else ⟨400, .errJson "URL is required"⟩)).statusCode = 405 := by
        rw [if_neg hO, if_pos hP]
      simp [if_neg hO, if_pos hP, hO, hP]

namespace V3

/-- The failure modes of the V3 handler's try-block after the
missing-`url` check: `new URL(url)` throws, or the fetch does not resolve
to a 2xx page (rejection, abort timeout, or the thrown
`HTTP {status}` error). -/
def attemptFails (w : World) (u : String) : Prop :=
  w.parseHost u = none ∨ ∀ d, w.fetch u ≠ .success d

end V3

/-- Claim C1: every POST request whose URL fetch throws, times out, or
otherwise fails after the missing-`url` check is answered with HTTP 200,
`success: true`, and a fallback record whose `source` is `"fallback"` and
whose `ingredients`/`instructions` are the fixed manual-entry placeholder
strings. -/
theorem c1_failure_fallback (w : V3.World) (b : Json)
    (hurl : truthy (jget b "url") = true)
    (hfail : V3.attemptFails w (jsToString (jget b "url"))) :
    (V3.handler w "POST" (some b)).statusCode = 200 ∧
    ∃ sn, V3.handler w "POST" (some b) = V3.fallbackResponse sn ∧
      (V3.fallbackResponse sn).body =
        .okJson true (V3.fallbackRecipe sn) (.str "fallback")
          (some "Could not parse recipe automatically. Please add details manually.") ∧
      (V3.fallbackRecipe sn).source = .str "fallback" ∧
      (V3.fallbackRecipe sn).ingredients = .str "Please add ingredients manually" ∧
      (V3.fallbackRecipe sn).instructions =
        .str "Please add cooking instructions manually. Full recipe available at the linked URL." := by
  have hmain : V3.handler w "POST" (some b) =
      V3.fallbackResponse (V3.getSiteName w (jsToString (jget b "url"))) := by
    unfold V3.handler
    cases hh : w.parseHost (jsToString (jget b "url")) with
    | none => simp [hurl, hh]
    | some host =>
      cases hf : w.fetch (jsToString (jget b "url")) with
      | success doc =>
        exfalso
        rcases hfail with hpn | hfne
        · rw [hh] at hpn
          cases hpn
        · exact hfne doc hf
      | httpError st stx => simp [hurl, hh, hf]
      | netError => simp [hurl, hh, hf]
      | timeout => simp [hurl, hh, hf]
  rw [hmain]
  exact ⟨rfl, ⟨V3.getSiteName w (jsToString (jget b "url")), rfl, rfl, rfl, rfl, rfl⟩⟩

/-- Witness for C1 at a concrete request whose URL never resolves
(`new URL` throws in this world, and every fetch rejects). -/
theorem c1_failure_fallback_witness :
    truthy (jget (.obj [("url", .str "https://x.test/recipe")]) "url") = true ∧
    V3.attemptFails ⟨fun _ => none, fun _ => .netError⟩
      (jsToString (jget (.obj [("url", .str "https://x.test/recipe")]) "url")) ∧
    ((V3.handler ⟨fun _ => none, fun _ => .netError⟩ "POST"
        (some (.obj [("url", .str "https://x.test/recipe")]))).statusCode = 200 ∧
     ∃ sn, V3.handler ⟨fun _ => none, fun _ => .netError⟩ "POST"
          (some (.obj [("url", .str "https://x.test/recipe")])) = V3.fallbackResponse sn ∧
        (V3.fallbackResponse sn).body =
          .okJson true (V3.fallbackRecipe sn) (.str "fallback")
            (some "Could not parse recipe automatically. Please add details manually.") ∧
        (V3.fallbackRecipe sn).source = .str "fallback" ∧
        (V3.fallbackRecipe sn).ingredients = .str "Please add ingredients manually" ∧
        (V3.fallbackRecipe sn).instructions =
          .str "Please add cooking instructions manually. Full recipe available at the linked URL.") :=
  ⟨rfl, Or.inl rfl,
   c1_failure_fallback ⟨fun _ => none, fun _ => .netError⟩
     (.obj [("url", .str "https://x.test/recipe")]) rfl (Or.inl rfl)⟩

/-- Counterexample to claim C8: a JSON-LD `Recipe` whose `recipeYield`
is the number `4` flows through `item.recipeYield || item.yield || ''`
unconverted, so the returned record's `servings` field is a number, not a
string. -/
theorem c8_counterexample :
    (V3.parseRecipe
        ⟨[some (.obj [("@type", .str "Recipe"), ("recipeYield", .num 4)])],
          none, none, none, none⟩ "x.com").servings = .num 4 ∧
    ((V3.parseRecipe
        ⟨[some (.obj [("@type", .str "Recipe"), ("recipeYield", .num 4)])],
          none, none, none, none⟩ "x.com").servings).isStr = false :=
  ⟨rfl, rfl⟩

/-- A truthy value constrained to be a string: falsy values are allowed
(they are replaced by `''` behind a `||`), truthy ones must be strings. -/
def stringy (j : Json) : Bool := !truthy j || j.isStr

namespace V3

/-- The constraint on one JSON-LD item under which the V3 record copies
only strings: its `name`, `description`, `recipeYield`, `yield` and
`author.name` values are strings whenever they are truthy.  (The other
copied fields are strings by construction: `ingredients`,
`instructions` and `cookTime` are built as strings, and a truthy
non-string `cookTime`/`totalTime` throws inside the block instead.) -/
def itemOk (item : Json) : Bool :=
  stringy (jget item "name") && stringy (jget item "description") &&
  stringy (jget item "recipeYield") && stringy (jget item "yield") &&
  stringy (jget (jget item "author") "name")

/-- `itemOk` for every item of every well-formed JSON-LD block. -/
def docOk (blocks : List (Option Json)) : Bool :=
  blocks.all (fun bl =>
    match bl with
    | none => true
    | some d => (itemsOf d).all itemOk)

/-- All seven fields of a structured-data record are strings. -/
def ldAllStr (r : LdRecord) : Bool :=
  r.name.isStr && r.description.isStr && r.ingredients.isStr &&
  r.instructions.isStr && r.cookTime.isStr && r.servings.isStr && r.author.isStr

/-- All nine fields of a recipe record are strings. -/
def recAllStr (r : RecipeRecord) : Bool :=
  r.name.isStr && r.description.isStr && r.ingredients.isStr &&
  r.instructions.isStr && r.cookTime.isStr && r.servings.isStr &&
  r.author.isStr && r.siteName.isStr && r.source.isStr

end V3

/-- A truthiness-guarded value that is stringy stays a string. -/
theorem ifTruthy_isStr (n : Json) (h : stringy n = true) :
    (if truthy n then n else .str "").isStr = true := by
  by_cases htn : truthy n = true
  · rw [if_pos htn]
    unfold stringy at h
    rw [htn] at h
    simpa using h
  · rw [if_neg htn]
    rfl

/-- `a || ''` (and friends) is a string when `a` is stringy. -/
theorem jsOr_str_isStr (a : Json) (s : String) (h : stringy a = true) :
    (jsOr a (.str s)).isStr = true := by
  unfold jsOr
  by_cases hta : truthy a = true
  · rw [if_pos hta]
    unfold stringy at h
    rw [hta] at h
    simpa using h
  · rw [if_neg hta]
    rfl

/-- `a || b || ''` is a string when `a` and `b` are stringy. -/
theorem jsOr_jsOr_str_isStr (a b : Json) (s : String)
    (ha : stringy a = true) (hb : stringy b = true) :
    (jsOr a (jsOr b (.str s))).isStr = true := by
  unfold jsOr
  by_cases hta : truthy a = true
  · rw [if_pos hta]
    unfold stringy at ha
    rw [hta] at ha
    simpa using ha
  · rw [if_neg hta]
    exact jsOr_str_isStr b s hb

/-- `a || ''` is a string when `a` already is one. -/
theorem jsOr_str_of_isStr (a : Json) (s : String) (h : a.isStr = true) :
    (jsOr a (.str s)).isStr = true := by
  unfold jsOr
  by_cases hta : truthy a = true
  · rw [if_pos hta]
    exact h
  · rw [if_neg hta]
    rfl

/-- `getAuthor` yields a string whenever the item's `author.name` is
stringy (a string author or a falsy one needs no condition). -/
theorem getAuthor_isStr (au : Json) (h : stringy (jget au "name") = true) :
    (V3.getAuthor au).isStr = true := by
  unfold V3.getAuthor
  by_cases hta : truthy au = true
  · rw [if_pos hta]
    cases au with
    | str s => rfl
    | null => exact ifTruthy_isStr _ h
    | undefined => exact ifTruthy_isStr _ h
    | bool v => exact ifTruthy_isStr _ h
    | num n => exact ifTruthy_isStr _ h
    | arr xs => exact ifTruthy_isStr _ h
    | obj fields => exact ifTruthy_isStr _ h
  · rw [if_neg hta]
    rfl

/-- Under `itemOk`, a successfully built V3 record has only string
fields. -/
theorem buildRecord_allStr (item : Json) (r : V3.LdRecord)
    (h : V3.itemOk item = true) (hb : V3.buildRecord item = .ok r) :
    V3.ldAllStr r = true := by
  unfold V3.buildRecord at hb
  cases hins : V3.extractInstructions (jget item "recipeInstructions") with
  | error e =>
    rw [hins] at hb
    cases hb
  | ok ins =>
    rw [hins] at hb
    cases hct : V3.formatTimeJ (jsOr (jget item "cookTime") (jget item "totalTime")) with
    | error e =>
      rw [hct] at hb
      cases hb
    | ok ct =>
      rw [hct] at hb
      injection hb with hr
      subst hr
      unfold V3.itemOk at h
      simp only [Bool.and_eq_true] at h
      obtain ⟨⟨⟨⟨hn, hdesc⟩, hry⟩, hy⟩, hau⟩ := h
      unfold V3.ldAllStr
      simp only [Bool.and_eq_true]
      exact ⟨⟨⟨⟨⟨⟨jsOr_str_isStr _ _ hn, jsOr_str_isStr _ _ hdesc⟩, rfl⟩, rfl⟩,
        jsOr_str_of_isStr _ _ rfl⟩, jsOr_jsOr_str_isStr _ _ _ hry hy⟩,
        jsOr_str_of_isStr _ _ (getAuthor_isStr _ hau)⟩

/-- Under `itemOk` for every item, the inner scan only ever returns
all-string records. -/
theorem scanItems_allStr (items : List Json) (r : V3.LdRecord)
    (hok : items.all V3.itemOk = true)
    (hs : V3.scanItems items = .ok (some r)) : V3.ldAllStr r = true := by
  induction items with
  | nil =>
    exact absurd hs (by simp [V3.scanItems])
  | cons it rest ih =>
    rw [List.all_cons, Bool.and_eq_true] at hok
    obtain ⟨hi, hrest⟩ := hok
    unfold V3.scanItems at hs
    cases hg : jgetE it "@type" with
    | error e =>
      rw [hg] at hs
      cases hs
    | ok t =>
      rw [hg] at hs
      have hs2 : (if V3.typeIsRecipeScalar t = true then
          (match V3.buildRecord it with
           | .error e => (.error e : Except Unit (Option V3.LdRecord))
           | .ok r' => .ok (some r'))
          else V3.scanItems rest) = .ok (some r) := hs
      by_cases ht : V3.typeIsRecipeScalar t = true
      · rw [if_pos ht] at hs2
        cases hbr : V3.buildRecord it with
        | error e =>
          rw [hbr] at hs2
          cases hs2
        | ok r' =>
          rw [hbr] at hs2
          have hrr : r' = r := by
            injection hs2 with h1
            injection h1
          subst hrr
          exact buildRecord_allStr it r' hi hbr
      · rw [if_neg ht] at hs2
        exact ih hrest hs2

/-- Under `docOk`, every record `extractJSONLD` returns has only string
fields. -/
theorem extractJSONLD_allStr (blocks : List (Option Json)) (r : V3.LdRecord)
    (hok : V3.docOk blocks = true)
    (he : V3.extractJSONLD blocks = some r) : V3.ldAllStr r = true := by
  induction blocks with
  | nil => cases he
  | cons bl rest ih =>
    unfold V3.docOk at hok ih
    rw [List.all_cons, Bool.and_eq_true] at hok
    obtain ⟨hbl, hrest⟩ := hok
    cases bl with
    | none =>
      rw [V3.extractJSONLD] at he
      exact ih hrest he
    | some d =>
      unfold V3.extractJSONLD at he
      cases hsc : V3.scanItems (V3.itemsOf d) with
      | error e =>
        rw [hsc] at he
        exact ih hrest he
      | ok o =>
        cases o with
        | none =>
          rw [hsc] at he
          exact ih hrest he
        | some r' =>
          rw [hsc] at he
          injection he with h1
          subst h1
          exact scanItems_allStr (V3.itemsOf d) r' hbl hsc

/-- Claim C8 as amended: every field of a V3 record is a string on the
HTML path and on the fallback path unconditionally, and on the
structured-data path whenever the truthy values the record copies
verbatim from the JSON-LD item (`name`, `description`, `recipeYield`,
`yield`, `author.name`) are themselves strings; a truthy non-string
there (e.g. a numeric `recipeYield`) is copied unconverted (see the
counterexample). -/
theorem c8_all_fields_strings (doc : V3.HtmlDoc) (sn : String)
    (h : V3.docOk doc.ldBlocks = true) :
    V3.recAllStr (V3.parseRecipe doc sn) = true ∧
    V3.recAllStr (V3.fallbackRecipe sn) = true := by
  refine ⟨?_, rfl⟩
  unfold V3.parseRecipe
  cases he : V3.extractJSONLD doc.ldBlocks with
  | none =>
    unfold V3.recAllStr
    simp only [Bool.and_eq_true]
    exact ⟨⟨⟨⟨⟨⟨⟨⟨jsOr_str_of_isStr _ _ rfl, jsOr_str_of_isStr _ _ rfl⟩, rfl⟩, rfl⟩,
      rfl⟩, rfl⟩, rfl⟩, rfl⟩, rfl⟩
  | some r =>
    have hld := extractJSONLD_allStr doc.ldBlocks r h he
    unfold V3.ldAllStr at hld
    simp only [Bool.and_eq_true] at hld
    obtain ⟨⟨⟨⟨⟨⟨hn, hd⟩, hi⟩, hins⟩, hct⟩, hsv⟩, hau⟩ := hld
    unfold V3.recAllStr
    simp only [Bool.and_eq_true]
    exact ⟨⟨⟨⟨⟨⟨⟨⟨hn, hd⟩, hi⟩, hins⟩, hct⟩, hsv⟩, hau⟩, rfl⟩, rfl⟩

/-- Witness for C8 (amended) at a concrete document holding one
well-formed all-string `Recipe` block. -/
theorem c8_all_fields_strings_witness :
    V3.docOk ((⟨[some (.obj [("@type", .str "Recipe"), ("name", .str "Cake"),
        ("recipeYield", .str "4")])], none, none, none, none⟩ :
          V3.HtmlDoc).ldBlocks) = true ∧
    (V3.recAllStr (V3.parseRecipe
        ⟨[some (.obj [("@type", .str "Recipe"), ("name", .str "Cake"),
          ("recipeYield", .str "4")])], none, none, none, none⟩ "x.com") = true ∧
     V3.recAllStr (V3.fallbackRecipe "x.com") = true) :=
  ⟨rfl,
   c8_all_fields_strings
     ⟨[some (.obj [("@type", .str "Recipe"), ("name", .str "Cake"),
        ("recipeYield", .str "4")])], none, none, none, none⟩ "x.com" rfl⟩
